import Mathlib

/-!
Shallow embedding of `extract_coverage.py`.

The script reads one JSON document from standard input, takes one
command-line argument (a framework/target name), scans the array under the
key `targets` for the first record whose `name` equals the argument, prints
that record's `lineCoverage` times 100 formatted with no fractional digits,
and exits 0; it exits 1 on wrong argument count (with a usage line on
stderr) or when no record matches, and it dies with an uncaught exception
(process exit status 1, nothing on stdout) when the JSON does not parse or
the accessed structure is not there.

Modelling conventions:
  - JSON values are the inductive `Json`; numbers are exact rationals
    (the decimal literals of the document), so the numeric formatter is
    modelled as correct rounding of the exact value, ties to even, which
    is the rounding of the CPython fixed-point formatter.
  - stdout and stderr are lists of lines; `print` appends one line.
  - `json.load` of the standard library is abstracted by `StdinContent`:
    either a parsed document or a parse failure (empty input, syntax
    error), which the script does not catch.
  - An uncaught Python exception terminates the process with exit
    status 1 and a traceback on stderr; `crashResult` models that, with
    the traceback text abstracted to one marker line.
-/

namespace ExtractCoverage

/-- JSON values as produced by `json.load`: null, booleans, numbers,
strings, arrays, and objects (ordered field lists). -/
inductive Json where
  | null
  | bool (b : Bool)
  | num (q : ℚ)
  | str (s : String)
  | arr (xs : List Json)
  | obj (fields : List (String × Json))

/-- Key lookup in an object's field list where a later duplicate key wins,
as in a Python dict built by `json.load` from a document with duplicate
keys. -/
def lookupLast (fields : List (String × Json)) (k : String) : Option Json :=
  match fields with
  | [] => none
  | (k2, v) :: rest =>
    match lookupLast rest k with
    | some r => some r
    | none => if k2 == k then some v else none

/-- `j[k]` for a string key `k`: a value for an object holding the key;
`none` models the uncaught KeyError (key absent) or TypeError (subscripting
a non-object by a string) that kills the process. -/
def Json.getKey (j : Json) (k : String) : Option Json :=
  match j with
  | .obj fields => lookupLast fields k
  | _ => none

/-- Python `v == framework` for a string `framework`: true only for an
equal string; any non-string JSON value compares unequal without error. -/
def jsonEqStr (v : Json) (s : String) : Bool :=
  match v with
  | .str t => t == s
  | _ => false

/-- Decimal digit character for `d % 10`. -/
def digitChar (d : ℕ) : Char :=
  match d % 10 with
  | 0 => '0'
  | 1 => '1'
  | 2 => '2'
  | 3 => '3'
  | 4 => '4'
  | 5 => '5'
  | 6 => '6'
  | 7 => '7'
  | 8 => '8'
  | _ => '9'

/-- Decimal digits of `n`, most significant first, prepended to `acc`.
The fuel argument only bounds recursion depth; `n + 1` is always enough. -/
def natReprGo (fuel n : ℕ) (acc : List Char) : List Char :=
  match fuel with
  | 0 => acc
  | fuel + 1 =>
    if n < 10 then digitChar n :: acc
    else natReprGo fuel (n / 10) (digitChar n :: acc)

/-- Decimal digit list of a natural number. -/
def natReprList (n : ℕ) : List Char := natReprGo (n + 1) n []

/-- Nearest integer to the fraction `n / d` (for `d > 0`), ties to even:
the rounding applied by the CPython `.0f` fixed-point formatter to the
(exact) value it is given. `f` is the floor of `n / d`; the fractional
part `(n - f * d) / d` is compared with one half by cross-multiplying. -/
def roundHalfEvenFrac (n : ℤ) (d : ℕ) : ℤ :=
  let f := Int.fdiv n (d : ℤ)
  let r2 := 2 * (n - f * (d : ℤ))
  if r2 < (d : ℤ) then f
  else if r2 = (d : ℤ) then (if f % 2 = 0 then f else f + 1)
  else f + 1

/-- Decimal rendering of an integer: digits, with a leading minus sign for
negative values. -/
def intRepr (r : ℤ) : String :=
  if r < 0 then String.mk ('-' :: natReprList r.natAbs)
  else String.mk (natReprList r.toNat)

/-- The CPython format spec `.0f` applied to the exact fraction `n / d`
(for `d > 0`): round half to even to an integer and render it in decimal;
a negative value that rounds to zero renders as `-0`, as the formatter
keeps the sign of the value. -/
def formatF0Frac (n : ℤ) (d : ℕ) : String :=
  let r := roundHalfEvenFrac n d
  if n < 0 ∧ r = 0 then "-0" else intRepr r

/-- The line printed on a match: `"{0:.0f}".format(q * 100)` for the
coverage number `q`. The value `q * 100` is the fraction
`(100 * q.num) / q.den`; the renderer depends only on the ratio, so the
fraction is passed unnormalised. -/
def percentLine (q : ℚ) : String := formatF0Frac (100 * q.num) q.den

/-- `format(cov * 100)` under the `.0f` spec for a JSON value `cov`:
numbers are formatted after scaling; Python booleans are integers
(`True * 100 = 100`); every other value makes the statement raise
(TypeError on `* 100` for null/object, or ValueError when the format spec
meets a string or list), modelled as `none`. -/
def pyFormatCov (cov : Json) : Option String :=
  match cov with
  | .num q => some (percentLine q)
  | .bool b => some (formatF0Frac (if b then 100 else 0) 1)
  | _ => none

/-- Result of one process run: the lines written to stdout, the lines
written to stderr, and the exit status. -/
structure ProgResult where
  stdout : List String
  stderr : List String
  exitCode : ℕ
deriving DecidableEq, Repr

/-- An uncaught exception: exit status 1, nothing on stdout, a traceback
on stderr (content abstracted to a marker line). -/
def crashResult : ProgResult := ⟨[], ["Traceback"], 1⟩

/-- The usage line printed to stderr on wrong argument count, with the
program name interpolated. -/
def usageMsg (prog : String) : String := "Usage: " ++ prog ++ " frameworkname"

/-- The scan loop over the records of the `targets` array: for each record
in order, access its `name` (crash when absent or the record is not an
object), compare with the argument; on the first match access
`lineCoverage` (crash when absent), print it scaled and formatted
(crash when unformattable) and exit 0; exit 1 when the list is exhausted. -/
def scanList (fw : String) : List Json → ProgResult
  | [] => ⟨[], [], 1⟩
  | t :: rest =>
    match t.getKey "name" with
    | none => crashResult
    | some nv =>
      if jsonEqStr nv fw then
        match t.getKey "lineCoverage" with
        | none => crashResult
        | some cv =>
          match pyFormatCov cv with
          | none => crashResult
          | some line => ⟨[line], [], 0⟩
      else scanList fw rest

/-- The run on a parsed document `j`: `len(j["targets"])` crashes when
`j` is not an object with the key, or when the value has no length
(number, boolean, null); a string or object value has a length, and the
loop then either never runs (length 0: exit 1) or crashes indexing the
first element; an array is scanned. -/
def runWithDoc (fw : String) (j : Json) : ProgResult :=
  match j.getKey "targets" with
  | some (Json.arr xs) => scanList fw xs
  | some (Json.str s) => if s.isEmpty then ⟨[], [], 1⟩ else crashResult
  | some (Json.obj fs) => if fs.isEmpty then ⟨[], [], 1⟩ else crashResult
  | some _ => crashResult
  | none => crashResult

/-- What `json.load(sys.stdin)` yields: a parse failure (empty input or a
syntax error raises, uncaught) or a parsed document. -/
inductive StdinContent where
  | parseError
  | doc (j : Json)

/-- The whole script as a function of the program name (`sys.argv[0]`),
the positional arguments (`sys.argv[1:]`), and standard input. The
argument-count check runs before stdin is touched. -/
def run (prog : String) (args : List String) (input : StdinContent) : ProgResult :=
  match args, input with
  | [_], .parseError => crashResult
  | [fw], .doc j => runWithDoc fw j
  | _, _ => ⟨[], [usageMsg prog], 1⟩

/-- A record is well formed when it carries a string `name` and a numeric
`lineCoverage`. -/
def wfRecord (t : Json) : Bool :=
  (match t.getKey "name" with | some (Json.str _) => true | _ => false) &&
  (match t.getKey "lineCoverage" with | some (Json.num _) => true | _ => false)

/-- A report is well formed when its `targets` key holds an array of well
formed records. -/
def wfReport (j : Json) : Bool :=
  match j.getKey "targets" with
  | some (Json.arr xs) => xs.all wfRecord
  | _ => false

/-- The record's `name` is the string `N`. -/
def targetNamed (N : String) (t : Json) : Bool :=
  match t.getKey "name" with
  | some (Json.str m) => m == N
  | _ => false

/-- The report has some record named `N` under `targets`. -/
def hasTargetNamed (N : String) (j : Json) : Bool :=
  match j.getKey "targets" with
  | some (Json.arr xs) => xs.any (targetNamed N)
  | _ => false

/-- The report has a record named `N` whose `lineCoverage` is the
number `c`. -/
def hasTargetCov (j : Json) (N : String) (c : ℚ) : Bool :=
  match j.getKey "targets" with
  | some (Json.arr xs) => xs.any (fun t =>
      targetNamed N t &&
      (match t.getKey "lineCoverage" with
       | some (Json.num q) => decide (q = c)
       | _ => false))
  | _ => false

/-- The first record named `N`, in array order, when `targets` is an
array. -/
def firstNamed (N : String) (j : Json) : Option Json :=
  match j.getKey "targets" with
  | some (Json.arr xs) => xs.find? (targetNamed N)
  | _ => none

/-- The scan steps over this record without matching and without
crashing: it has a `name` and it is not equal to the argument. -/
def skipsRecord (fw : String) (t : Json) : Bool :=
  match t.getKey "name" with
  | some nv => !(jsonEqStr nv fw)
  | none => false

/-- The scan of this record list raises before printing: the first record
that is not skipped either lacks `name`, or matches but lacks
`lineCoverage` or holds an unformattable one. -/
def scanHitsBadEntry (fw : String) : List Json → Bool
  | [] => false
  | t :: rest =>
    match t.getKey "name" with
    | none => true
    | some nv =>
      if jsonEqStr nv fw then
        match t.getKey "lineCoverage" with
        | none => true
        | some cv => (pyFormatCov cv).isNone
      else scanHitsBadEntry fw rest

/-- Inputs on which the run observes a malformation: a parse failure, a
missing `targets` key (or a non-object document), a non-array `targets`
value, or a scan that raises before printing. -/
def malformedInput (fw : String) : StdinContent → Bool
  | .parseError => true
  | .doc j =>
    match j.getKey "targets" with
    | some (Json.arr xs) => scanHitsBadEntry fw xs
    | some _ => true
    | none => true

/-! Sample documents used to instantiate the hypotheses of the theorems
below on concrete inputs. The rationals are built as reduced fractions so
that all definitions evaluate by kernel reduction. -/

/-- The number 0.873 of the sample report. -/
def q873 : ℚ := ⟨873, 1000, by norm_num, by norm_num⟩

/-- The number 0.5 of the sample report. -/
def qHalf : ℚ := ⟨1, 2, by norm_num, by norm_num⟩

/-- The rounding-boundary number 0.005. -/
def qBoundary : ℚ := ⟨1, 200, by norm_num, by norm_num⟩

/-- An out-of-range coverage value, -1. -/
def qNegOne : ℚ := ⟨-1, 1, by norm_num, by norm_num⟩

/-- The number 0. -/
def qZero : ℚ := ⟨0, 1, by norm_num, by norm_num⟩

/-- The number 1. -/
def qOne : ℚ := ⟨1, 1, by norm_num, by norm_num⟩

/-- The record of target alpha with coverage 0.873. -/
def alphaRec : Json :=
  Json.obj [("name", Json.str "alpha"), ("lineCoverage", Json.num q873)]

/-- The record of target beta with coverage 0.5. -/
def betaRec : Json :=
  Json.obj [("name", Json.str "beta"), ("lineCoverage", Json.num qHalf)]

/-- The spec's concrete scenario: alpha at 0.873, beta at 0.5. -/
def sampleDoc : Json := Json.obj [("targets", Json.arr [alphaRec, betaRec])]

/-- A record named alpha with coverage 0. -/
def dupRec0 : Json :=
  Json.obj [("name", Json.str "alpha"), ("lineCoverage", Json.num qZero)]

/-- A second record named alpha, with coverage 1. -/
def dupRec1 : Json :=
  Json.obj [("name", Json.str "alpha"), ("lineCoverage", Json.num qOne)]

/-- A report with two records named alpha: coverage 0 first, coverage 1
second. -/
def dupDoc : Json := Json.obj [("targets", Json.arr [dupRec0, dupRec1])]

/-- A report whose first record is a valid match for alpha and whose
second record is an empty object, missing both expected fields. -/
def partialDoc : Json :=
  Json.obj [("targets", Json.arr
    [Json.obj [("name", Json.str "alpha"), ("lineCoverage", Json.num qHalf)],
     Json.obj []])]

/-- A record with no `name` key. -/
def noNameRec : Json := Json.obj [("lineCoverage", Json.num qHalf)]

/-- A report whose first record lacks `name` and whose second record
matches alpha. -/
def badNameDoc : Json := Json.obj [("targets", Json.arr [noNameRec, alphaRec])]

/-- A record named alpha whose coverage, -1, lies outside [0, 1]. -/
def negRec : Json :=
  Json.obj [("name", Json.str "alpha"), ("lineCoverage", Json.num qNegOne)]

/-- A report whose only record has the out-of-range coverage -1. -/
def negDoc : Json := Json.obj [("targets", Json.arr [negRec])]

/-- A report whose only record, alpha, carries the rounding-boundary
coverage 0.005. -/
def boundaryDoc : Json :=
  Json.obj [("targets", Json.arr
    [Json.obj [("name", Json.str "alpha"), ("lineCoverage", Json.num qBoundary)]])]

/-! Helper lemmas about the scan. -/

/-- A well formed record has a string `name`. -/
lemma wfRecord_name (t : Json) (h : wfRecord t = true) :
    ∃ m, t.getKey "name" = some (Json.str m) := by
  unfold wfRecord at h
  cases hn : t.getKey "name" with
  | none => rw [hn] at h; simp at h
  | some v =>
    rw [hn] at h
    cases v <;> simp_all

/-- Stepping the scan over a record it skips. -/
lemma scanList_cons_skip (fw : String) (t : Json) (l : List Json)
    (h : skipsRecord fw t = true) : scanList fw (t :: l) = scanList fw l := by
  unfold skipsRecord at h
  cases hn : t.getKey "name" with
  | none => rw [hn] at h; simp at h
  | some nv =>
    rw [hn] at h
    simp only [Bool.not_eq_true'] at h
    simp only [scanList, hn, h, Bool.false_eq_true, if_false]

/-- The scan ignores a leading block of skipped records. -/
lemma scanList_append_skips (fw : String) (pre l : List Json)
    (h : ∀ u ∈ pre, skipsRecord fw u = true) :
    scanList fw (pre ++ l) = scanList fw l := by
  induction pre with
  | nil => rfl
  | cons t ts ih =>
    rw [List.cons_append, scanList_cons_skip fw t _ (h t (by simp)),
      ih (fun u hu => h u (by simp [hu]))]

/-- The scan stops at a record named like the argument and prints its
scaled, formatted coverage. -/
lemma scanList_cons_match (fw : String) (t : Json) (l : List Json) (c : ℚ)
    (hn : t.getKey "name" = some (Json.str fw))
    (hc : t.getKey "lineCoverage" = some (Json.num c)) :
    scanList fw (t :: l) = ⟨[percentLine c], [], 0⟩ := by
  simp only [scanList, hn, hc, jsonEqStr, beq_self_eq_true, if_true, pyFormatCov]

/-- The scan crashes at a record with no `name`. -/
lemma scanList_cons_no_name (fw : String) (t : Json) (l : List Json)
    (hn : t.getKey "name" = none) :
    scanList fw (t :: l) = crashResult := by
  simp only [scanList, hn]

/-- The run on a document whose `targets` is an array is the scan of that
array. -/
lemma run_doc_arr (prog fw : String) (j : Json) (xs : List Json)
    (h : j.getKey "targets" = some (Json.arr xs)) :
    run prog [fw] (StdinContent.doc j) = scanList fw xs := by
  show runWithDoc fw j = scanList fw xs
  unfold runWithDoc
  rw [h]

/-- A well formed report holds an array of well formed records under
`targets`. -/
lemma wfReport_targets (j : Json) (h : wfReport j = true) :
    ∃ xs, j.getKey "targets" = some (Json.arr xs) ∧ ∀ t ∈ xs, wfRecord t = true := by
  unfold wfReport at h
  cases ht : j.getKey "targets" with
  | none => rw [ht] at h; simp at h
  | some v =>
    rw [ht] at h
    cases v <;> dsimp only at h <;> try simp at h
    exact ⟨_, rfl, by simpa [List.all_eq_true] using h⟩

/-- Exhausting the scan over well formed records none of which is named
like the argument exits 1 with no output. -/
lemma scanList_no_match (N : String) (xs : List Json)
    (hwf : ∀ t ∈ xs, wfRecord t = true)
    (hno : ∀ t ∈ xs, targetNamed N t = false) :
    scanList N xs = ⟨[], [], 1⟩ := by
  induction xs with
  | nil => rfl
  | cons t l ih =>
    obtain ⟨m, hm⟩ := wfRecord_name t (hwf t (by simp))
    have ht : targetNamed N t = false := hno t (by simp)
    unfold targetNamed at ht
    rw [hm] at ht
    have hskip : scanList N (t :: l) = scanList N l := by
      apply scanList_cons_skip
      unfold skipsRecord
      rw [hm]
      simpa [jsonEqStr] using ht
    rw [hskip]
    exact ih (fun u hu => hwf u (by simp [hu])) (fun u hu => hno u (by simp [hu]))

/-- A scan that hits a bad entry crashes. -/
lemma scanList_bad (fw : String) (xs : List Json)
    (h : scanHitsBadEntry fw xs = true) : scanList fw xs = crashResult := by
  induction xs with
  | nil => simp [scanHitsBadEntry] at h
  | cons t l ih =>
    unfold scanHitsBadEntry at h
    cases hn : t.getKey "name" with
    | none => exact scanList_cons_no_name fw t l hn
    | some nv =>
      rw [hn] at h
      dsimp only at h
      cases he : jsonEqStr nv fw with
      | false =>
        rw [he] at h
        simp only [Bool.false_eq_true, if_false] at h
        rw [show scanList fw (t :: l) = scanList fw l from
          scanList_cons_skip fw t l
            (by unfold skipsRecord; rw [hn]; dsimp only; rw [he]; rfl)]
        exact ih h
      | true =>
        rw [he] at h
        simp only [if_true] at h
        cases hc : t.getKey "lineCoverage" with
        | none => simp only [scanList, hn, he, if_true, hc]
        | some cv =>
          rw [hc] at h
          dsimp only at h
          cases hf : pyFormatCov cv with
          | none => simp only [scanList, hn, he, if_true, hc, hf]
          | some line => rw [hf] at h; simp at h

/-- The scan finding its first match at a record with a numeric coverage
prints that coverage scaled and formatted, and exits 0; the records after
the match play no part. -/
lemma scanList_first_match (N : String) (xs : List Json) (t : Json) (c : ℚ)
    (hwf : ∀ u ∈ xs, wfRecord u = true)
    (hfind : xs.find? (targetNamed N) = some t)
    (hc : t.getKey "lineCoverage" = some (Json.num c)) :
    scanList N xs = ⟨[percentLine c], [], 0⟩ := by
  induction xs with
  | nil => simp at hfind
  | cons x l ih =>
    obtain ⟨m, hm⟩ := wfRecord_name x (hwf x (by simp))
    cases htn : targetNamed N x with
    | true =>
      have hx : x = t := by
        rw [List.find?_cons, htn] at hfind
        exact Option.some.inj hfind
      have hmN : m = N := by
        unfold targetNamed at htn
        rw [hm] at htn
        exact eq_of_beq htn
      subst hx
      exact scanList_cons_match N x l c (hmN ▸ hm) hc
    | false =>
      have hfind2 : l.find? (targetNamed N) = some t := by
        rw [List.find?_cons, htn] at hfind
        exact hfind
      have hskip : scanList N (x :: l) = scanList N l := by
        apply scanList_cons_skip
        unfold skipsRecord
        rw [hm]
        unfold targetNamed at htn
        rw [hm] at htn
        simpa [jsonEqStr] using htn
      rw [hskip]
      exact ih (fun u hu => hwf u (by simp [hu])) hfind2

/-! Lemmas on the decimal renderer. -/

/-- The digit characters are digits. -/
lemma digitChar_isDigit (d : ℕ) : (digitChar d).isDigit = true := by
  unfold digitChar
  generalize d % 10 = k
  rcases k with _ | _ | _ | _ | _ | _ | _ | _ | _ | k <;> rfl

/-- The digit accumulator only ever adds digits. -/
lemma natReprGo_digits (fuel : ℕ) : ∀ (n : ℕ) (acc : List Char),
    (∀ ch ∈ acc, ch.isDigit = true) →
    ∀ ch ∈ natReprGo fuel n acc, ch.isDigit = true := by
  induction fuel with
  | zero => intro n acc hacc; simpa [natReprGo] using hacc
  | succ f ih =>
    intro n acc hacc ch hch
    rw [natReprGo] at hch
    split at hch
    · rcases List.mem_cons.mp hch with h | h
      · subst h; exact digitChar_isDigit n
      · exact hacc ch h
    · refine ih (n / 10) (digitChar n :: acc) ?_ ch hch
      intro c hc
      rcases List.mem_cons.mp hc with h | h
      · subst h; exact digitChar_isDigit n
      · exact hacc c h

/-- The digit accumulator never shrinks. -/
lemma natReprGo_length (fuel : ℕ) : ∀ (n : ℕ) (acc : List Char),
    acc.length ≤ (natReprGo fuel n acc).length := by
  induction fuel with
  | zero => intro n acc; simp [natReprGo]
  | succ f ih =>
    intro n acc
    rw [natReprGo]
    split
    · simp
    · calc acc.length ≤ (digitChar n :: acc).length := by simp
        _ ≤ _ := ih (n / 10) (digitChar n :: acc)

/-- With fuel available, the renderer emits at least one character. -/
lemma natReprGo_ne_nil (f n : ℕ) (acc : List Char) :
    natReprGo (f + 1) n acc ≠ [] := by
  rw [natReprGo]
  split
  · simp
  · intro h
    have hlen := natReprGo_length f (n / 10) (digitChar n :: acc)
    rw [h] at hlen
    simp at hlen

/-- The digit list of a natural number: nonempty, all digits. -/
lemma natReprList_digits (n : ℕ) :
    natReprList n ≠ [] ∧ ∀ ch ∈ natReprList n, ch.isDigit = true :=
  ⟨natReprGo_ne_nil n n [], natReprGo_digits (n + 1) n [] (by simp)⟩

/-- Rounding a nonnegative fraction is nonnegative. -/
lemma roundHalfEvenFrac_nonneg (n : ℤ) (d : ℕ) (hn : 0 ≤ n) :
    0 ≤ roundHalfEvenFrac n d := by
  have hf : 0 ≤ Int.fdiv n (d : ℤ) := Int.fdiv_nonneg hn (by positivity)
  unfold roundHalfEvenFrac
  dsimp only
  split_ifs <;> omega

/-- Formatting a nonnegative fraction yields a nonempty all-digit string:
no decimal point, no sign, no separator. -/
lemma formatF0Frac_digits (n : ℤ) (d : ℕ) (hn : 0 ≤ n) :
    (formatF0Frac n d).toList ≠ [] ∧
    ∀ ch ∈ (formatF0Frac n d).toList, ch.isDigit = true := by
  unfold formatF0Frac
  rw [if_neg (by rintro ⟨h, -⟩; omega)]
  unfold intRepr
  rw [if_neg (not_lt.mpr (roundHalfEvenFrac_nonneg n d hn))]
  show (natReprList _ ≠ [] ∧ _)
  exact natReprList_digits _

/-! The claims. -/

/-- Claim C3: invoking with zero or with two-or-more positional arguments
prints a usage line to standard error and exits with code 1, and the
outcome is the same whatever standard input holds (stdin is not read:
the argument-count check precedes the parse). -/
theorem run_wrong_argc_usage_error (prog : String) (args : List String)
    (input input2 : StdinContent) (h : args.length ≠ 1) :
    run prog args input = ⟨[], [usageMsg prog], 1⟩ ∧
    run prog args input = run prog args input2 := by
  rcases args with _ | ⟨a, _ | ⟨b, l⟩⟩
  · exact ⟨rfl, rfl⟩
  · simp at h
  · exact ⟨rfl, rfl⟩

/-- Claim C3, witness: no arguments, two different stdin contents. -/
theorem run_wrong_argc_usage_error_witness :
    ([] : List String).length ≠ 1 ∧
    (run "cov" [] (StdinContent.doc sampleDoc) = ⟨[], [usageMsg "cov"], 1⟩ ∧
     run "cov" [] (StdinContent.doc sampleDoc) = run "cov" [] StdinContent.parseError) :=
  ⟨by decide, run_wrong_argc_usage_error "cov" []
    (StdinContent.doc sampleDoc) StdinContent.parseError (by decide)⟩

/-- Claim C8: the program is deterministic: two invocations with the same
positional arguments and the same standard-input content produce the same
stdout, the same stderr, and the same exit code (the run is a pure
function of argument and input stream). -/
theorem run_deterministic (prog : String) (args1 args2 : List String)
    (input1 input2 : StdinContent) (ha : args1 = args2) (hi : input1 = input2) :
    run prog args1 input1 = run prog args2 input2 ∧
    (run prog args1 input1).stdout = (run prog args2 input2).stdout ∧
    (run prog args1 input1).stderr = (run prog args2 input2).stderr ∧
    (run prog args1 input1).exitCode = (run prog args2 input2).exitCode := by
  subst ha; subst hi; exact ⟨rfl, rfl, rfl, rfl⟩

/-- Claim C8, witness: two identical invocations on the sample report. -/
theorem run_deterministic_witness :
    (["alpha"] : List String) = ["alpha"] ∧
    StdinContent.doc sampleDoc = StdinContent.doc sampleDoc ∧
    (run "cov" ["alpha"] (StdinContent.doc sampleDoc) =
       run "cov" ["alpha"] (StdinContent.doc sampleDoc) ∧
     (run "cov" ["alpha"] (StdinContent.doc sampleDoc)).stdout =
       (run "cov" ["alpha"] (StdinContent.doc sampleDoc)).stdout ∧
     (run "cov" ["alpha"] (StdinContent.doc sampleDoc)).stderr =
       (run "cov" ["alpha"] (StdinContent.doc sampleDoc)).stderr ∧
     (run "cov" ["alpha"] (StdinContent.doc sampleDoc)).exitCode =
       (run "cov" ["alpha"] (StdinContent.doc sampleDoc)).exitCode) :=
  ⟨rfl, rfl, run_deterministic "cov" ["alpha"] ["alpha"]
    (StdinContent.doc sampleDoc) (StdinContent.doc sampleDoc) rfl rfl⟩

/-- Claim C2: on a well formed report with no target named `N`, invoking
with argument `N` writes nothing to standard output and exits with
code 1. -/
theorem run_name_not_found_exits_one (prog N : String) (j : Json)
    (hwf : wfReport j = true) (hno : hasTargetNamed N j = false) :
    run prog [N] (StdinContent.doc j) = ⟨[], [], 1⟩ := by
  obtain ⟨xs, ht, hall⟩ := wfReport_targets j hwf
  rw [run_doc_arr prog N j xs ht]
  apply scanList_no_match N xs hall
  unfold hasTargetNamed at hno
  rw [ht] at hno
  dsimp only at hno
  intro t htl
  simpa using List.any_eq_false.mp hno t htl

/-- Claim C2, witness: the sample report holds no target named gamma. -/
theorem run_name_not_found_exits_one_witness :
    wfReport sampleDoc = true ∧ hasTargetNamed "gamma" sampleDoc = false ∧
    run "cov" ["gamma"] (StdinContent.doc sampleDoc) = ⟨[], [], 1⟩ :=
  ⟨by decide, by decide,
   run_name_not_found_exits_one "cov" "gamma" sampleDoc (by decide) (by decide)⟩

/-- Claim C5: when several records share the name `N`, the first one in
array order is the one reported: the scan returns on that record, and the
records after it (among them the duplicates) play no part in the
result. -/
theorem run_duplicate_names_reports_first (prog N : String) (j : Json)
    (pre rest : List Json) (t : Json) (c : ℚ)
    (ht : j.getKey "targets" = some (Json.arr (pre ++ t :: rest)))
    (hpre : ∀ u ∈ pre, skipsRecord N u = true)
    (hn : t.getKey "name" = some (Json.str N))
    (hc : t.getKey "lineCoverage" = some (Json.num c))
    (hdup : rest.any (targetNamed N) = true) :
    run prog [N] (StdinContent.doc j) = ⟨[percentLine c], [], 0⟩ := by
  rw [run_doc_arr prog N j _ ht, scanList_append_skips N pre _ hpre,
    scanList_cons_match N t rest c hn hc]

/-- Claim C5, witness: two records named alpha, coverages 0 and 1; the
first (coverage 0) is reported. -/
theorem run_duplicate_names_reports_first_witness :
    dupDoc.getKey "targets" = some (Json.arr ([] ++ dupRec0 :: [dupRec1])) ∧
    (∀ u ∈ ([] : List Json), skipsRecord "alpha" u = true) ∧
    dupRec0.getKey "name" = some (Json.str "alpha") ∧
    dupRec0.getKey "lineCoverage" = some (Json.num qZero) ∧
    [dupRec1].any (targetNamed "alpha") = true ∧
    run "cov" ["alpha"] (StdinContent.doc dupDoc) = ⟨[percentLine qZero], [], 0⟩ :=
  ⟨rfl, by decide, rfl, rfl, by decide,
   run_duplicate_names_reports_first "cov" "alpha" dupDoc [] [dupRec1] dupRec0
     qZero rfl (by decide) rfl rfl (by decide)⟩

/-- Claim C9: when a record with no `name` key stands before the first
record named `N` (one of which exists later), the run dies with a
non-zero exit and prints nothing, instead of skipping the malformed
record and reporting the later match: the scan accesses `name` on every
record up to and including the first match. -/
theorem run_missing_name_key_crashes (prog N : String) (j : Json)
    (pre rest : List Json) (bad : Json)
    (ht : j.getKey "targets" = some (Json.arr (pre ++ bad :: rest)))
    (hpre : ∀ u ∈ pre, skipsRecord N u = true)
    (hbad : bad.getKey "name" = none)
    (hlater : rest.any (targetNamed N) = true) :
    (run prog [N] (StdinContent.doc j)).stdout = [] ∧
    (run prog [N] (StdinContent.doc j)).exitCode ≠ 0 := by
  rw [run_doc_arr prog N j _ ht, scanList_append_skips N pre _ hpre,
    scanList_cons_no_name N bad rest hbad]
  exact ⟨rfl, by decide⟩

/-- Claim C9, witness: a record without `name` first, a matching record
for alpha second: crash, nothing printed. -/
theorem run_missing_name_key_crashes_witness :
    badNameDoc.getKey "targets" = some (Json.arr ([] ++ noNameRec :: [alphaRec])) ∧
    noNameRec.getKey "name" = none ∧
    [alphaRec].any (targetNamed "alpha") = true ∧
    ((run "cov" ["alpha"] (StdinContent.doc badNameDoc)).stdout = [] ∧
     (run "cov" ["alpha"] (StdinContent.doc badNameDoc)).exitCode ≠ 0) :=
  ⟨rfl, rfl, by decide,
   run_missing_name_key_crashes "cov" "alpha" badNameDoc [] [alphaRec] noNameRec
     rfl (by decide) rfl (by decide)⟩

/-- Claim C10: no range validation of `lineCoverage`: when the first
record named `N` carries a numeric coverage outside [0, 1], the run still
prints the formatted value of coverage times 100 (possibly signed or
above 100) and exits 0. -/
theorem run_no_range_validation (prog N : String) (j : Json)
    (pre rest : List Json) (t : Json) (c : ℚ)
    (ht : j.getKey "targets" = some (Json.arr (pre ++ t :: rest)))
    (hpre : ∀ u ∈ pre, skipsRecord N u = true)
    (hn : t.getKey "name" = some (Json.str N))
    (hc : t.getKey "lineCoverage" = some (Json.num c))
    (hout : c < 0 ∨ 1 < c) :
    run prog [N] (StdinContent.doc j) = ⟨[percentLine c], [], 0⟩ := by
  rw [run_doc_arr prog N j _ ht, scanList_append_skips N pre _ hpre,
    scanList_cons_match N t rest c hn hc]

/-- Claim C10, witness: coverage -1 is reported as the line -100 with
exit code 0. -/
theorem run_no_range_validation_witness :
    negDoc.getKey "targets" = some (Json.arr ([] ++ negRec :: [])) ∧
    negRec.getKey "name" = some (Json.str "alpha") ∧
    negRec.getKey "lineCoverage" = some (Json.num qNegOne) ∧
    (qNegOne < 0 ∨ 1 < qNegOne) ∧
    percentLine qNegOne = "-100" ∧
    run "cov" ["alpha"] (StdinContent.doc negDoc) = ⟨[percentLine qNegOne], [], 0⟩ :=
  ⟨rfl, rfl, rfl, by decide, by decide,
   run_no_range_validation "cov" "alpha" negDoc [] [] negRec qNegOne
     rfl (by decide) rfl rfl (by decide)⟩

/-- Claim C1, counterexample: the claim quantifies over every target
named `N` a well formed report contains. `dupDoc` contains a target named
alpha with coverage 1, for which the claim demands the line `100`
(`round(1 * 100)`); the run prints `0`, the rounded percentage of the
first record named alpha, and never reaches the second. -/
theorem duplicate_name_shadows_later_coverage :
    wfReport dupDoc = true ∧
    hasTargetCov dupDoc "alpha" qOne = true ∧
    percentLine qOne = "100" ∧
    run "cov" ["alpha"] (StdinContent.doc dupDoc) = ⟨["0"], [], 0⟩ ∧
    (run "cov" ["alpha"] (StdinContent.doc dupDoc)).stdout ≠ [percentLine qOne] := by
  exact ⟨by decide, by decide, by decide, by decide, by decide⟩

/-- Claim C1 (amended): on a well formed report containing a target named
`N`, whose first record named `N` in array order has coverage `c`,
invoking with the single argument `N` prints `round(c * 100)` as one line
on standard output and exits with code 0. -/
theorem run_prints_first_named_coverage (prog N : String) (j t : Json) (c : ℚ)
    (hwf : wfReport j = true)
    (hfirst : firstNamed N j = some t)
    (hc : t.getKey "lineCoverage" = some (Json.num c)) :
    run prog [N] (StdinContent.doc j) = ⟨[percentLine c], [], 0⟩ := by
  obtain ⟨xs, ht, hall⟩ := wfReport_targets j hwf
  unfold firstNamed at hfirst
  rw [ht] at hfirst
  dsimp only at hfirst
  rw [run_doc_arr prog N j xs ht]
  exact scanList_first_match N xs t c hall hfirst hc

/-- Claim C1, witness: the spec's concrete scenario: argument beta on the
sample report prints the line 50 and exits 0. -/
theorem run_prints_first_named_coverage_witness :
    wfReport sampleDoc = true ∧
    firstNamed "beta" sampleDoc = some betaRec ∧
    betaRec.getKey "lineCoverage" = some (Json.num qHalf) ∧
    percentLine qHalf = "50" ∧
    run "cov" ["beta"] (StdinContent.doc sampleDoc) = ⟨[percentLine qHalf], [], 0⟩ :=
  ⟨by decide, rfl, rfl, by decide,
   run_prints_first_named_coverage "cov" "beta" sampleDoc betaRec qHalf
     (by decide) rfl rfl⟩

/-- Claim C4, counterexample: `partialDoc` is not well formed (its second
record misses both expected fields), yet the run with argument alpha
prints the line 50 and exits 0: the scan stops at the first match and
never inspects the malformed record behind it. -/
theorem malformed_entry_after_match_succeeds :
    wfReport partialDoc = false ∧
    run "cov" ["alpha"] (StdinContent.doc partialDoc) = ⟨["50"], [], 0⟩ ∧
    (run "cov" ["alpha"] (StdinContent.doc partialDoc)).exitCode = 0 ∧
    (run "cov" ["alpha"] (StdinContent.doc partialDoc)).stdout ≠ [] := by
  exact ⟨by decide, by decide, by decide, by decide⟩

/-- Claim C4 (amended): on every input whose malformation the run
observes — a JSON parse failure (empty input or syntax error), a missing
`targets` key or a non-object document, a non-array `targets` value, or a
scan that reaches a record lacking the expected fields at or before the
first name match — the process exits with a non-zero status and writes
nothing to standard output. -/
theorem run_malformed_input_silent_failure (prog fw : String)
    (input : StdinContent) (h : malformedInput fw input = true) :
    (run prog [fw] input).stdout = [] ∧ (run prog [fw] input).exitCode ≠ 0 := by
  cases input with
  | parseError => exact ⟨rfl, Nat.one_ne_zero⟩
  | doc j =>
    unfold malformedInput at h
    dsimp only at h
    show (runWithDoc fw j).stdout = [] ∧ (runWithDoc fw j).exitCode ≠ 0
    unfold runWithDoc
    cases ht : j.getKey "targets" with
    | none => exact ⟨rfl, Nat.one_ne_zero⟩
    | some v =>
      rw [ht] at h
      cases v with
      | arr xs =>
        dsimp only at h ⊢
        rw [scanList_bad fw xs h]
        exact ⟨rfl, Nat.one_ne_zero⟩
      | str s =>
        dsimp only
        split_ifs <;> exact ⟨rfl, Nat.one_ne_zero⟩
      | obj fs =>
        dsimp only
        split_ifs <;> exact ⟨rfl, Nat.one_ne_zero⟩
      | null => exact ⟨rfl, Nat.one_ne_zero⟩
      | bool b => exact ⟨rfl, Nat.one_ne_zero⟩
      | num q => exact ⟨rfl, Nat.one_ne_zero⟩

/-- Claim C4, witness: a parse failure (empty input or syntax error)
yields a non-zero exit and an empty stdout. -/
theorem run_malformed_input_silent_failure_witness :
    malformedInput "alpha" StdinContent.parseError = true ∧
    ((run "cov" ["alpha"] StdinContent.parseError).stdout = [] ∧
     (run "cov" ["alpha"] StdinContent.parseError).exitCode ≠ 0) :=
  ⟨by decide,
   run_malformed_input_silent_failure "cov" "alpha" StdinContent.parseError (by decide)⟩

/-- Claim C6: on a successful invocation (first matching record, numeric
coverage within [0, 1]), the entire standard output is exactly one line,
a nonempty all-digit string: no decimal point, no sign, no thousands
separator. -/
theorem run_success_single_integer_line (prog N : String) (j : Json)
    (pre rest : List Json) (t : Json) (c : ℚ)
    (ht : j.getKey "targets" = some (Json.arr (pre ++ t :: rest)))
    (hpre : ∀ u ∈ pre, skipsRecord N u = true)
    (hn : t.getKey "name" = some (Json.str N))
    (hc : t.getKey "lineCoverage" = some (Json.num c))
    (h0 : 0 ≤ c) (h1 : c ≤ 1) :
    (run prog [N] (StdinContent.doc j)).stdout = [percentLine c] ∧
    (run prog [N] (StdinContent.doc j)).exitCode = 0 ∧
    (percentLine c).toList ≠ [] ∧
    (∀ ch ∈ (percentLine c).toList, ch.isDigit = true) ∧
    '.' ∉ (percentLine c).toList ∧
    '-' ∉ (percentLine c).toList ∧
    ',' ∉ (percentLine c).toList := by
  have hrun : run prog [N] (StdinContent.doc j) = ⟨[percentLine c], [], 0⟩ := by
    rw [run_doc_arr prog N j _ ht, scanList_append_skips N pre _ hpre,
      scanList_cons_match N t rest c hn hc]
  have hnum : 0 ≤ 100 * c.num := mul_nonneg (by norm_num) (Rat.num_nonneg.mpr h0)
  obtain ⟨hne, hdig⟩ := formatF0Frac_digits (100 * c.num) c.den hnum
  refine ⟨by rw [hrun], by rw [hrun], hne, hdig, ?_, ?_, ?_⟩
  · intro hmem; exact absurd (hdig _ hmem) (by decide)
  · intro hmem; exact absurd (hdig _ hmem) (by decide)
  · intro hmem; exact absurd (hdig _ hmem) (by decide)

/-- Claim C6, witness: argument alpha on the sample report: the output is
the single line 87, whose characters are digits only. -/
theorem run_success_single_integer_line_witness :
    sampleDoc.getKey "targets" = some (Json.arr ([] ++ alphaRec :: [betaRec])) ∧
    alphaRec.getKey "name" = some (Json.str "alpha") ∧
    alphaRec.getKey "lineCoverage" = some (Json.num q873) ∧
    (0 ≤ q873 ∧ q873 ≤ 1) ∧
    percentLine q873 = "87" ∧
    ((run "cov" ["alpha"] (StdinContent.doc sampleDoc)).stdout = [percentLine q873] ∧
     (run "cov" ["alpha"] (StdinContent.doc sampleDoc)).exitCode = 0 ∧
     (percentLine q873).toList ≠ [] ∧
     (∀ ch ∈ (percentLine q873).toList, ch.isDigit = true) ∧
     '.' ∉ (percentLine q873).toList ∧
     '-' ∉ (percentLine q873).toList ∧
     ',' ∉ (percentLine q873).toList) :=
  ⟨rfl, rfl, rfl, by decide, by decide,
   run_success_single_integer_line "cov" "alpha" sampleDoc [] [betaRec] alphaRec
     q873 rfl (by decide) rfl rfl (by decide) (by decide)⟩

/-- Claim C7: at the rounding boundary, coverage 0.005, the printed line
is one of the two strings 1 (round half away from zero) and 0 (round half
to even); the formatter modelled here rounds half to even, so the run
prints 0 and exits 0. -/
theorem run_half_boundary_output :
    ((run "cov" ["alpha"] (StdinContent.doc boundaryDoc)).stdout = ["1"] ∨
     (run "cov" ["alpha"] (StdinContent.doc boundaryDoc)).stdout = ["0"]) ∧
    (run "cov" ["alpha"] (StdinContent.doc boundaryDoc)).stdout = ["0"] ∧
    (run "cov" ["alpha"] (StdinContent.doc boundaryDoc)).exitCode = 0 := by
  exact ⟨Or.inr (by decide), by decide, by decide⟩

end ExtractCoverage
